import Mathlib

/-!
Verification development for the local-first note store of the
speech-to-text application.  The definitions below are a shallow
embedding of the TypeScript sources:

* `src/services/search.ts`  — `SearchService` (query parsing and search
  orchestration) and `DictionaryService` (phrase replacement engine);
* `src/services/database.ts` — `DatabaseService` (schema, CRUD, filtered
  listing, export, statistics) together with the SQLite triggers that
  keep the full-text index synchronized.

SQLite itself is external to the repository; its documented behaviour
(WHERE/ORDER BY/LIMIT/OFFSET evaluation, the prepare-time syntax error
for an OFFSET clause without a LIMIT clause, the NOT operator on
integers) is embedded directly in the corresponding operations.  The
FTS5 match engine is kept abstract as a parameter, since none of the
verified properties depend on its matching behaviour.
-/

instance {ε : Type u} {α : Type v} [DecidableEq ε] [DecidableEq α] :
    DecidableEq (Except ε α) := fun x y =>
  match x, y with
  | Except.error a, Except.error b =>
    if h : a = b then isTrue (by rw [h]) else isFalse (by simp [h])
  | Except.ok a, Except.ok b =>
    if h : a = b then isTrue (by rw [h]) else isFalse (by simp [h])
  | Except.error _, Except.ok _ => isFalse (by simp)
  | Except.ok _, Except.error _ => isFalse (by simp)

namespace STT

/-! ### JavaScript string primitives used by the query parser

The parser in `search.ts` works through `String.match`, `String.replace`,
`trim` and `toLowerCase`.  The regular expressions it uses are simple
enough to embed as direct left-to-right scanners; the scanners below
follow the JavaScript engine discipline: leftmost match, alternatives
tried in order, greedy word runs, and on failure the scan advances by a
single character. -/

/-- The JavaScript word class `\w`, that is `[A-Za-z0-9_]`. -/
def isWordChar (c : Char) : Bool := c.isAlphanum || c = '_'

/-- Whitespace stripped by `String.prototype.trim` (ASCII part). -/
def jsSpace (c : Char) : Bool :=
  c = ' ' || c = '\t' || c = '\n' || c = '\r' || c = '\x0b' || c = '\x0c'

/-- Embedding of `String.prototype.trim`. -/
def jsTrim (l : List Char) : List Char :=
  ((l.dropWhile jsSpace).reverse.dropWhile jsSpace).reverse

/-- Greedily take the maximal run of word characters (the `\w+` part of a
match) and return it together with the rest of the input. -/
def takeWord : List Char → List Char × List Char
  | [] => ([], [])
  | c :: cs =>
    if isWordChar c then
      let p := takeWord cs
      (c :: p.1, p.2)
    else ([], c :: cs)

/-- Drop the literal `pat` from the front of `l` (case-sensitive). -/
def chopStart : (pat : List Char) → (l : List Char) → Option (List Char)
  | [], l => some l
  | _ :: _, [] => none
  | p :: ps, c :: cs => if c = p then chopStart ps cs else none

/-- Drop the literal `pat` (given in lower case) from the front of `l`,
comparing case-insensitively: the `i` flag of the source regexes. -/
def chopStartCI : (pat : List Char) → (l : List Char) → Option (List Char)
  | [], l => some l
  | _ :: _, [] => none
  | p :: ps, c :: cs => if c.toLower = p then chopStartCI ps cs else none

theorem takeWord_snd_length : ∀ l : List Char, (takeWord l).2.length ≤ l.length
  | [] => Nat.le_refl _
  | c :: cs => by
    unfold takeWord
    by_cases h : isWordChar c = true
    · simpa [h] using Nat.le_succ_of_le (takeWord_snd_length cs)
    · simp [h]

/-- All matches of the global regex `(?:tag:|#)(\w+)` from
`parseQuery` in `search.ts`, returned as the full matched substrings
(this is what `String.match` with the `g` flag yields).  The scan is
fuelled; `tagMatches` supplies enough fuel for the whole input. -/
def tagMatchesF : Nat → List Char → List (List Char)
  | 0, _ => []
  | _ + 1, [] => []
  | fuel + 1, 't' :: 'a' :: 'g' :: ':' :: rest =>
    match rest with
    | c :: rest2 =>
      if isWordChar c then
        let p := takeWord rest2
        ('t' :: 'a' :: 'g' :: ':' :: c :: p.1) :: tagMatchesF fuel p.2
      else tagMatchesF fuel ('a' :: 'g' :: ':' :: c :: rest2)
    | [] => tagMatchesF fuel ['a', 'g', ':']
  | fuel + 1, '#' :: c :: rest =>
    if isWordChar c then
      let p := takeWord rest
      ('#' :: c :: p.1) :: tagMatchesF fuel p.2
    else tagMatchesF fuel (c :: rest)
  | fuel + 1, _ :: rest => tagMatchesF fuel rest

def tagMatches (l : List Char) : List (List Char) := tagMatchesF (l.length + 1) l

/-- Embedding of `searchText.replace(/(?:tag:|#)\w+/g, apostrophe-free
empty string)`: delete every match of the tag regex. -/
def stripTagsF : Nat → List Char → List Char
  | 0, l => l
  | _ + 1, [] => []
  | fuel + 1, 't' :: 'a' :: 'g' :: ':' :: rest =>
    match rest with
    | c :: rest2 =>
      if isWordChar c then stripTagsF fuel (takeWord rest2).2
      else 't' :: stripTagsF fuel ('a' :: 'g' :: ':' :: c :: rest2)
    | [] => 't' :: stripTagsF fuel ['a', 'g', ':']
  | fuel + 1, '#' :: c :: rest =>
    if isWordChar c then stripTagsF fuel (takeWord rest).2
    else '#' :: stripTagsF fuel (c :: rest)
  | fuel + 1, c :: rest => c :: stripTagsF fuel rest

def stripTags (l : List Char) : List Char := stripTagsF (l.length + 1) l

/-- The per-match post-processing `match.replace(/^(?:tag:|#)/, ...)`:
strip a leading `tag:` or `#` from a single matched token. -/
def stripTagMarker (m : List Char) : List Char :=
  match chopStart (("tag:").data) m with
  | some r => r
  | none =>
    match m with
    | '#' :: r => r
    | _ => m

/-- First match of `/fav:(true|false)/i`: returns whether the captured
alternative was `true`.  Mirrors `rawQuery.match` without the `g` flag. -/
def favFind : List Char → Option Bool
  | [] => none
  | l@(_ :: rest) =>
    match chopStartCI (("fav:true").data) l with
    | some _ => some true
    | none =>
      match chopStartCI (("fav:false").data) l with
      | some _ => some false
      | none => favFind rest

/-- Embedding of `searchText.replace(/fav:(true|false)/i, ...)`: delete
the first case-insensitive occurrence, if any. -/
def stripFavFirst : List Char → List Char
  | [] => []
  | l@(c :: rest) =>
    match chopStartCI (("fav:true").data) l with
    | some r => r
    | none =>
      match chopStartCI (("fav:false").data) l with
      | some r => r
      | none => c :: stripFavFirst rest

/-- First match of `/date:(\w+)/i`: the captured word, as written. -/
def dateFind : List Char → Option (List Char)
  | [] => none
  | l@(_ :: rest) =>
    match chopStartCI (("date:").data) l with
    | some r =>
      match r with
      | c :: _ => if isWordChar c then some (takeWord r).1 else dateFind rest
      | [] => dateFind rest
    | none => dateFind rest

/-- Embedding of `searchText.replace(/date:\w+/i, ...)`: delete the
first case-insensitive occurrence, if any. -/
def stripDateFirst : List Char → List Char
  | [] => []
  | l@(c :: rest) =>
    match chopStartCI (("date:").data) l with
    | some r =>
      match r with
      | c2 :: _ =>
        if isWordChar c2 then (takeWord r).2 else c :: stripDateFirst rest
      | [] => c :: stripDateFirst rest
    | none => c :: stripDateFirst rest

/-! ### The JavaScript local-calendar interface

`parseQuery` reads the current instant through `getFullYear`,
`getMonth`, `getDate` and `getDay`, and builds period floors with
`new Date(year, month, day).getTime()`.  We represent the current local
calendar day directly as a civil date and embed the `Date` constructor
through the standard civil-to-epoch-day conversion (the month argument
is the civil month `1..12`; the source composes `getMonth`, which is the
civil month minus one, with a constructor expecting exactly that shifted
form, so the two shifts cancel).  The day argument may lie outside the
month, exactly as in JavaScript, where the constructor normalizes it;
the conversion below is linear in the day argument, which is the
normalization property the verified statements rely on.  The model
clock has a fixed zero UTC offset, so local midnight of epoch day `n`
is the instant `86400000 * n`. -/

def daysFromCivil (y m d : Int) : Int :=
  let yy := if m ≤ 2 then y - 1 else y
  let era := yy / 400
  let yoe := yy - era * 400
  let mp := if m > 2 then m - 3 else m + 9
  let doy := (153 * mp + 2) / 5 + d - 1
  let doe := yoe * 365 + yoe / 4 - yoe / 100 + doy
  era * 146097 + doe - 719468

/-- The local civil date of the current instant, as JavaScript exposes it
through `getFullYear` / `getMonth` / `getDate` (month here is civil,
`1..12`). -/
structure JSDate where
  year : Int
  month : Int
  day : Int
deriving DecidableEq, Repr

/-- Epoch day number of the current local day. -/
def dayNumber (t : JSDate) : Int := daysFromCivil t.year t.month t.day

/-- Embedding of `Date.prototype.getDay` (0 = Sunday): epoch day 0,
1970-01-01, was a Thursday. -/
def jsGetDay (t : JSDate) : Int := (dayNumber t + 4) % 7

def msPerDay : Int := 86400000

/-- Embedding of `new Date(y, mIdx, d).getTime()` at local midnight,
where `mIdx` is the zero-based month index produced by `getMonth`.
Callers below always pass `t.month - 1 + 1 = t.month` in civil form. -/
def jsMakeTime (y m d : Int) : Int := msPerDay * daysFromCivil y m d

/-! ### Filter objects and the query parser -/

/-- `TranscriptionFilters` from `database.ts`.  Optional numeric fields
are `Option Int`; a missing field is `none`. -/
structure TranscriptionFilters where
  startDate : Option Int := none
  endDate : Option Int := none
  isFavorite : Option Bool := none
  tags : Option (List String) := none
  limit : Option Int := none
  offset : Option Int := none
deriving DecidableEq, Repr

structure ParseResult where
  searchText : String
  filters : TranscriptionFilters
deriving DecidableEq, Repr

/-- The date-independent part of `parseQuery`: matched tags, favorite
flag, the captured (lower-cased) date word, and the residual search
text. -/
structure CoreResult where
  searchText : String
  tags : Option (List String)
  isFavorite : Option Bool
  dateWord : Option String
deriving DecidableEq, Repr

def parseQueryCore (rawQuery : String) : CoreResult :=
  let s0 := rawQuery.data
  let tagMs := tagMatches s0
  let searchText1 := if tagMs.isEmpty then s0 else jsTrim (stripTags s0)
  let tags :=
    if tagMs.isEmpty then none
    else some (tagMs.map (fun m => String.mk ((stripTagMarker m).map Char.toLower)))
  let fav := favFind s0
  let searchText2 :=
    match fav with
    | none => searchText1
    | some _ => jsTrim (stripFavFirst searchText1)
  let dw := dateFind s0
  let searchText3 :=
    match dw with
    | none => searchText2
    | some _ => jsTrim (stripDateFirst searchText2)
  { searchText := String.mk searchText3
    tags := tags
    isFavorite := fav
    dateWord := dw.map (fun w => String.mk (w.map Char.toLower)) }

/-- `SearchService.parseQuery` from `search.ts`: split a raw query into
free search text and structured filters.  The date directives are
resolved against the current local calendar day `now`; the `switch`
falls through silently for an unrecognized date word, but the token has
already been removed from the search text at that point. -/
def parseQuery (rawQuery : String) (now : JSDate) : ParseResult :=
  let c := parseQueryCore rawQuery
  let startDate : Option Int :=
    match c.dateWord with
    | none => none
    | some w =>
      if w = "today" then some (jsMakeTime now.year now.month now.day)
      else if w = "week" then
        some (jsMakeTime now.year now.month (now.day - jsGetDay now))
      else if w = "month" then some (jsMakeTime now.year now.month 1)
      else none
  { searchText := c.searchText
    filters :=
      { startDate := startDate
        isFavorite := c.isFavorite
        tags := c.tags } }

/-! ### The store

The rows of the four tables that the verified operations touch:
`transcriptions`, the FTS5 shadow table `transcriptions_fts`, `tags`
and `note_tags`.  The FTS entries are maintained by the triggers
`transcriptions_ai` / `transcriptions_au` / `transcriptions_ad` of the
initial migration, which the mutation operations below embed inline. -/

structure Transcription where
  id : Int
  raw_text : String
  formatted_text : String
  timestamp : Int
  formatting_profile : String
  is_favorite : Int
  created_at : Int
deriving DecidableEq, Repr

structure TagRow where
  id : Int
  name : String
  color : String
  use_count : Int
  created_at : Int
deriving DecidableEq, Repr

structure NoteTagRow where
  note_id : Int
  tag_id : Int
deriving DecidableEq, Repr

structure FtsRow where
  rowid : Int
  raw_text : String
  formatted_text : String
deriving DecidableEq, Repr

structure Store where
  notes : List Transcription
  fts : List FtsRow
  tags : List TagRow
  note_tags : List NoteTagRow
deriving DecidableEq, Repr

/-- `DatabaseService.getStats`: three fresh COUNT queries. -/
structure Stats where
  total : Nat
  favorites : Nat
  totalTags : Nat
deriving DecidableEq, Repr

def getStats (s : Store) : Stats :=
  { total := s.notes.length
    favorites := (s.notes.filter (fun n => n.is_favorite = 1)).length
    totalTags := s.tags.length }

/-- The updatable-field record accepted by
`DatabaseService.updateTranscription` (a `Partial<TranscriptionInsert>`):
all five insert fields may be supplied, but the implementation only ever
reads `formatted_text`, `formatting_profile` and `is_favorite`. -/
structure TranscriptionUpdate where
  raw_text : Option String := none
  formatted_text : Option String := none
  timestamp : Option Int := none
  formatting_profile : Option String := none
  is_favorite : Option Int := none
deriving DecidableEq, Repr

/-- Whether `updateTranscription` collects at least one SET field. -/
def hasUpdateFields (u : TranscriptionUpdate) : Bool :=
  u.formatted_text.isSome || u.formatting_profile.isSome || u.is_favorite.isSome

def applyUpdate (u : TranscriptionUpdate) (n : Transcription) : Transcription :=
  { n with
    formatted_text := u.formatted_text.getD n.formatted_text
    formatting_profile := u.formatting_profile.getD n.formatting_profile
    is_favorite := u.is_favorite.getD n.is_favorite }

/-- `DatabaseService.updateTranscription`: build a SET list from the
provided fields, return early if it is empty, otherwise run
`UPDATE transcriptions ... WHERE id = ?`.  The after-update trigger
rewrites the FTS row of every updated row with the new text columns. -/
def updateTranscription (s : Store) (id : Int) (u : TranscriptionUpdate) : Store :=
  if hasUpdateFields u = false then s
  else
    { s with
      notes := s.notes.map (fun n => if n.id = id then applyUpdate u n else n)
      fts :=
        match s.notes.find? (fun n => n.id = id) with
        | none => s.fts
        | some n =>
          s.fts.map (fun e =>
            if e.rowid = id then
              { e with
                raw_text := n.raw_text
                formatted_text := (applyUpdate u n).formatted_text }
            else e) }

/-- `DatabaseService.deleteTranscription`: `DELETE ... WHERE id = ?`.
When a row is deleted, the after-delete trigger removes its FTS row and
the `ON DELETE CASCADE` constraint removes its tag associations; when no
row matches, nothing fires. -/
def deleteTranscription (s : Store) (id : Int) : Store :=
  if s.notes.any (fun n => n.id = id) then
    { s with
      notes := s.notes.filter (fun n => !(n.id = id))
      fts := s.fts.filter (fun e => !(e.rowid = id))
      note_tags := s.note_tags.filter (fun nt => !(nt.note_id = id)) }
  else s

/-- `DatabaseService.toggleFavorite`:
`UPDATE transcriptions SET is_favorite = NOT is_favorite WHERE id = ?`.
The SQLite `NOT` maps 0 to 1 and every nonzero value to 0.  The
after-update trigger rewrites the FTS text columns of every updated row
(with unchanged values). -/
def toggleFavorite (s : Store) (id : Int) : Store :=
  { s with
    notes :=
      s.notes.map (fun n =>
        if n.id = id then
          { n with is_favorite := if n.is_favorite = 0 then 1 else 0 }
        else n)
    fts :=
      match s.notes.find? (fun n => n.id = id) with
      | none => s.fts
      | some n =>
        s.fts.map (fun e =>
          if e.rowid = id then
            { e with raw_text := n.raw_text, formatted_text := n.formatted_text }
          else e) }

/-! ### Filtered listing

`DatabaseService.getTranscriptions` builds one SQL statement from the
filter object.  JavaScript truthiness governs which clauses are
appended: a zero `startDate`, `endDate`, `limit` or `offset` adds no
clause, and the tag clause is added only for a nonempty tag list.  The
built statement is then prepared; SQLite rejects at prepare time a
statement that carries an `OFFSET` clause without a `LIMIT` clause,
which is the one way this listing can fail. -/

/-- The prepared shape of the listing statement: which WHERE clauses and
pagination clauses were appended. -/
structure SqlQuery where
  favorite : Option Int := none
  startDate : Option Int := none
  endDate : Option Int := none
  tagNames : Option (List String) := none
  limit : Option Int := none
  offset : Option Int := none
deriving DecidableEq, Repr

def buildListQuery (f : TranscriptionFilters) : SqlQuery :=
  { favorite :=
      match f.isFavorite with
      | some b => some (if b then 1 else 0)
      | none => none
    startDate := f.startDate.bind (fun v => if v = 0 then none else some v)
    endDate := f.endDate.bind (fun v => if v = 0 then none else some v)
    tagNames :=
      match f.tags with
      | some ts => if ts.length > 0 then some ts else none
      | none => none
    limit := f.limit.bind (fun v => if v = 0 then none else some v)
    offset := f.offset.bind (fun v => if v = 0 then none else some v) }

/-- The clause `is_favorite = ?`, when present. -/
def favClause (c : Option Int) (n : Transcription) : Bool :=
  match c with
  | some v => n.is_favorite = v
  | none => true

/-- The clause `timestamp >= ?`, when present. -/
def startClause (c : Option Int) (n : Transcription) : Bool :=
  match c with
  | some v => v ≤ n.timestamp
  | none => true

/-- The clause `timestamp <= ?`, when present. -/
def endClause (c : Option Int) (n : Transcription) : Bool :=
  match c with
  | some v => n.timestamp ≤ v
  | none => true

/-- The clause `id IN (SELECT DISTINCT note_id FROM note_tags WHERE
tag_id IN (SELECT id FROM tags WHERE name IN (...)))`, when present. -/
def tagClause (s : Store) (c : Option (List String)) (n : Transcription) : Bool :=
  match c with
  | some names =>
    s.note_tags.any (fun nt =>
      nt.note_id = n.id &&
      s.tags.any (fun t => t.id = nt.tag_id && names.contains t.name))
  | none => true

/-- The WHERE part of the listing statement applied to one row. -/
def rowMatches (s : Store) (q : SqlQuery) (n : Transcription) : Bool :=
  favClause q.favorite n && startClause q.startDate n && endClause q.endDate n &&
    tagClause s q.tagNames n

/-- `LIMIT l OFFSET o` on the ordered result set: skip `o` rows (a
negative offset counts as zero), then return up to `l` rows (a negative
limit means no limit).  Only reached when a LIMIT clause is present or
no OFFSET clause is. -/
def applyPage (q : SqlQuery) (rows : List Transcription) : List Transcription :=
  match q.limit with
  | none => rows
  | some l =>
    let r :=
      match q.offset with
      | some o => rows.drop (if o < 0 then 0 else o.toNat)
      | none => rows
    if l < 0 then r else r.take l.toNat

/-- Run the prepared listing statement: prepare-time syntax check, WHERE
filter, ORDER BY timestamp DESC, pagination. -/
def runQuery (s : Store) (q : SqlQuery) : Except String (List Transcription) :=
  if q.offset.isSome && q.limit.isNone then
    Except.error ("near \x22OFFSET\x22: syntax error")
  else
    Except.ok (applyPage q
      (List.insertionSort (fun a b : Transcription => b.timestamp ≤ a.timestamp)
        (s.notes.filter (rowMatches s q))))

/-- `DatabaseService.getTranscriptions`. -/
def getTranscriptions (s : Store) (f : TranscriptionFilters) :
    Except String (List Transcription) :=
  runQuery s (buildListQuery f)

/-! ### Full-text search

`DatabaseService.searchTranscriptions` joins the primary table with the
FTS5 index under `transcriptions_fts MATCH ?`.  The match engine is
SQLite internals; it is kept abstract as a ranking oracle that either
fails (FTS5 rejects malformed match syntax at query time) or yields the
matching rowids with their ranks.  The surrounding statement — the
join, the extra WHERE clauses, ORDER BY rank then timestamp DESC, and
pagination — is embedded concretely. -/

structure FtsEngine where
  matchRows : String → List FtsRow → Except String (List (Int × Int))

/-- `DatabaseService.searchTranscriptions`. -/
def searchTranscriptions (e : FtsEngine) (s : Store) (searchQuery : String)
    (f : TranscriptionFilters) : Except String (List Transcription) :=
  if (jsTrim searchQuery.data).isEmpty then getTranscriptions s f
  else
    let q := buildListQuery f
    if q.offset.isSome && q.limit.isNone then
      Except.error ("near \x22OFFSET\x22: syntax error")
    else
      match e.matchRows searchQuery s.fts with
      | Except.error m => Except.error m
      | Except.ok hits =>
        let joined := hits.filterMap (fun h =>
          (s.notes.find? (fun n => n.id = h.1)).map (fun n => (n, h.2)))
        let filtered := joined.filter (fun p => rowMatches s q p.1)
        let sorted := List.insertionSort
          (fun a b : Transcription × Int =>
            a.2 < b.2 ∨ (a.2 = b.2 ∧ b.1.timestamp ≤ a.1.timestamp)) filtered
        Except.ok (applyPage q (sorted.map (fun p => p.1)))

/-! ### The search orchestrator (`SearchService.search`) -/

/-- The caller-supplied explicit filters of `SearchOptions` in
`search.ts`.  Dates arrive as `Date` objects, represented here by their
`getTime` value; a present `Date` object is always truthy. -/
structure UserFilters where
  startDate : Option Int := none
  endDate : Option Int := none
  isFavorite : Option Bool := none
  tags : Option (List String) := none
deriving DecidableEq, Repr

structure SearchOptions where
  query : String
  filters : Option UserFilters := none
  limit : Option Int := none
  offset : Option Int := none
deriving DecidableEq, Repr

structure SearchResult where
  transcriptions : List Transcription
  total : Nat
  hasMore : Bool
deriving DecidableEq, Repr

/-- Merge of parsed filters with the caller-supplied ones, as written in
`search`: scalar fields are overridden when present, tag lists
concatenate. -/
def mergeFilters (parsed : TranscriptionFilters) (uf : UserFilters) :
    TranscriptionFilters :=
  let c1 :=
    match uf.startDate with
    | some v => { parsed with startDate := some v }
    | none => parsed
  let c2 :=
    match uf.endDate with
    | some v => { c1 with endDate := some v }
    | none => c1
  let c3 :=
    match uf.isFavorite with
    | some b => { c2 with isFavorite := some b }
    | none => c2
  match uf.tags with
  | some ts => { c3 with tags := some (c3.tags.getD [] ++ ts) }
  | none => c3

/-- `SearchService.search`: parse, merge filters, dispatch to the FTS
search when the residual text is nonempty and to the plain listing
otherwise, then report the overall store count as `total` and compare
`offset + returned` against it for `hasMore`.  The destructuring
defaults of the source apply only to absent fields, so an explicit
`limit: 0` stays 0. -/
def search (e : FtsEngine) (s : Store) (now : JSDate) (opts : SearchOptions) :
    Except String SearchResult :=
  let limit := opts.limit.getD 50
  let offset := opts.offset.getD 0
  let parsed := parseQuery opts.query now
  let combined0 := { parsed.filters with limit := some limit, offset := some offset }
  let combined :=
    match opts.filters with
    | none => combined0
    | some uf => mergeFilters combined0 uf
  let rowsE :=
    if (jsTrim parsed.searchText.data).isEmpty then getTranscriptions s combined
    else searchTranscriptions e s parsed.searchText combined
  rowsE.map (fun rows =>
    { transcriptions := rows
      total := (getStats s).total
      hasMore := decide (offset + (rows.length : Int) < ((getStats s).total : Int)) })

/-! ### The phrase replacement engine (`DictionaryService`) -/

structure DictionaryEntry where
  id : Int
  spoken_phrase : String
  replacement : String
  is_case_sensitive : Int
  is_enabled : Int
  created_at : Int
  updated_at : Int
deriving DecidableEq, Repr

/-- `DictionaryService.getEnabledEntries`:
`SELECT * ... WHERE is_enabled = 1 ORDER BY LENGTH(spoken_phrase) DESC`. -/
def getEnabledEntries (entries : List DictionaryEntry) : List DictionaryEntry :=
  List.insertionSort
    (fun a b : DictionaryEntry => b.spoken_phrase.length ≤ a.spoken_phrase.length)
    (entries.filter (fun e => e.is_enabled = 1))

/-- Case-sensitive replacement path:
`result.split(entry.spoken_phrase).join(entry.replacement)`, i.e.
replace every non-overlapping occurrence left to right.  Splitting on
the empty string severs every character. -/
def replaceAllCSF : Nat → List Char → List Char → List Char → List Char
  | 0, _, _, text => text
  | _ + 1, _, _, [] => []
  | fuel + 1, pat, repl, text@(c :: cs) =>
    match chopStart pat text with
    | some rest => repl ++ replaceAllCSF fuel pat repl rest
    | none => c :: replaceAllCSF fuel pat repl cs

def replaceAllCS (pat repl text : List Char) : List Char :=
  match pat with
  | [] => List.intercalate repl (text.map (fun c => [c]))
  | _ :: _ => replaceAllCSF (text.length + 1) pat repl text

/-- Case-insensitive replacement path: a regex built from the phrase
with its metacharacters escaped, applied with the g and i flags — every
occurrence of the literal phrase, compared case-insensitively, replaced
left to right.  The empty pattern matches at every position. -/
def replaceAllCIF : Nat → List Char → List Char → List Char → List Char
  | 0, _, _, text => text
  | _ + 1, _, _, [] => []
  | fuel + 1, pat, repl, text@(c :: cs) =>
    match chopStartCI pat text with
    | some rest => repl ++ replaceAllCIF fuel pat repl rest
    | none => c :: replaceAllCIF fuel pat repl cs

def replaceAllCI (pat repl text : List Char) : List Char :=
  match pat with
  | [] => repl ++ text.flatMap (fun c => c :: repl)
  | _ :: _ => replaceAllCIF (text.length + 1) pat repl text

/-- `DictionaryService.applyReplacements`: fold the enabled entries, in
length-descending order, over the text.  The replacement string is
taken literally (none of the verified inputs contain dollar
metacharacters). -/
def applyReplacements (entries : List DictionaryEntry) (text : String) : String :=
  (getEnabledEntries entries).foldl
    (fun result e =>
      if e.is_case_sensitive ≠ 0 then
        String.mk (replaceAllCS e.spoken_phrase.data e.replacement.data result.data)
      else
        String.mk (replaceAllCI (e.spoken_phrase.data.map Char.toLower)
          e.replacement.data result.data))
    text

/-! ### Export (`DatabaseService.exportTranscriptions`) -/

/-- A JSON value, as produced by `JSON.stringify` and consumed by
`JSON.parse`.  The note fields only need strings and integers. -/
inductive Json where
  | str : String → Json
  | num : Int → Json
  | arr : List Json → Json
  | obj : List (String × Json) → Json

def Json.getField (j : Json) (name : String) : Option Json :=
  match j with
  | Json.obj fields => (fields.find? (fun f => f.1 = name)).map (fun f => f.2)
  | _ => none

def Json.asStr (j : Json) : Option String :=
  match j with
  | Json.str s => some s
  | _ => none

def Json.asNum (j : Json) : Option Int :=
  match j with
  | Json.num n => some n
  | _ => none

/-- Serialization of one row, all fields, as `JSON.stringify` sees it. -/
def jsonOfNote (n : Transcription) : Json :=
  Json.obj
    [("id", Json.num n.id),
     ("raw_text", Json.str n.raw_text),
     ("formatted_text", Json.str n.formatted_text),
     ("timestamp", Json.num n.timestamp),
     ("formatting_profile", Json.str n.formatting_profile),
     ("is_favorite", Json.num n.is_favorite),
     ("created_at", Json.num n.created_at)]

/-- Parsing one record back from the structured dump. -/
def decodeNote (j : Json) : Option Transcription := do
  let id ← (j.getField ("id")).bind Json.asNum
  let raw ← (j.getField ("raw_text")).bind Json.asStr
  let fmt ← (j.getField ("formatted_text")).bind Json.asStr
  let ts ← (j.getField ("timestamp")).bind Json.asNum
  let profile ← (j.getField ("formatting_profile")).bind Json.asStr
  let fav ← (j.getField ("is_favorite")).bind Json.asNum
  let created ← (j.getField ("created_at")).bind Json.asNum
  pure
    { id := id
      raw_text := raw
      formatted_text := fmt
      timestamp := ts
      formatting_profile := profile
      is_favorite := fav
      created_at := created }

/-- Parsing the whole structured dump back. -/
def decodeNotes (j : Json) : Option (List Transcription) :=
  match j with
  | Json.arr js => js.mapM decodeNote
  | _ => none

/-- The row selection of `exportTranscriptions`:
`WHERE id IN (...) ORDER BY timestamp ASC`.  SQLite accepts an empty IN
list, which matches no row. -/
def exportSelect (s : Store) (ids : List Int) : List Transcription :=
  List.insertionSort (fun a b : Transcription => a.timestamp ≤ b.timestamp)
    (s.notes.filter (fun n => ids.contains n.id))

/-- The JSON document produced by the `json` branch. -/
def exportJson (s : Store) (ids : List Int) : Json :=
  Json.arr ((exportSelect s ids).map jsonOfNote)

def escapeJsonChar (c : Char) : List Char :=
  if c = '\x22' then ['\\', '\x22']
  else if c = '\\' then ['\\', '\\']
  else if c = '\n' then ['\\', 'n']
  else if c = '\t' then ['\\', 't']
  else if c = '\r' then ['\\', 'r']
  else [c]

mutual
def renderJson : Json → String
  | Json.str s =>
    "\x22" ++ String.mk (s.data.foldr (fun c acc => escapeJsonChar c ++ acc) []) ++ "\x22"
  | Json.num n => toString n
  | Json.arr js => "[" ++ renderJsonList js ++ "]"
  | Json.obj fields => "\x7b" ++ renderJsonFields fields ++ "\x7d"

def renderJsonList : List Json → String
  | [] => ""
  | [j] => renderJson j
  | j :: js => renderJson j ++ "," ++ renderJsonList js

def renderJsonFields : List (String × Json) → String
  | [] => ""
  | [f] => "\x22" ++ f.1 ++ "\x22:" ++ renderJson f.2
  | f :: fs => "\x22" ++ f.1 ++ "\x22:" ++ renderJson f.2 ++ "," ++ renderJsonFields fs
end

/-- `DatabaseService.exportTranscriptions`.  The date header of the two
human-readable formats goes through `toLocaleString`, an
environment-dependent runtime facility, abstracted as `locale`.  The
`format` argument is a runtime string (the IPC surface passes it
through unchecked); the `switch` default throws. -/
def exportTranscriptions (locale : Int → String) (s : Store) (ids : List Int)
    (format : String) : Except String String :=
  let ts := exportSelect s ids
  if format = "json" then Except.ok (renderJson (exportJson s ids))
  else if format = "markdown" then
    Except.ok (String.intercalate "\n"
      (ts.map (fun t =>
        "# " ++ locale t.timestamp ++ "\n\n" ++ t.formatted_text ++ "\n\n---\n")))
  else if format = "txt" then
    Except.ok (String.intercalate "\n"
      (ts.map (fun t =>
        locale t.timestamp ++ "\n" ++ t.formatted_text ++ "\n\n" ++
          String.mk (List.replicate 50 '=') ++ "\n")))
  else Except.error ("Unsupported export format: " ++ format)

/-! ### Shared lemmas -/

/-- The civil-to-epoch-day conversion is linear in the day argument:
this is the normalization property of the `Date` constructor that the
week floor of `parseQuery` relies on when it passes a possibly
nonpositive day of month. -/
theorem daysFromCivil_day_sub (y m d k : Int) :
    daysFromCivil y m (d - k) = daysFromCivil y m d - k := by
  simp only [daysFromCivil]
  split <;> omega

theorem list_map_self {α : Type} (f : α → α) :
    ∀ l : List α, (∀ a ∈ l, f a = a) → l.map f = l
  | [], _ => rfl
  | a :: l, h => by
    simp only [List.map_cons, h a (List.mem_cons_self a l),
      list_map_self f l (fun b hb => h b (List.mem_cons_of_mem a hb))]

/-- Whether `pat` occurs as a contiguous substring of the text. -/
def hasSub (pat : List Char) : List Char → Bool
  | [] => (chopStart pat []).isSome
  | l@(_ :: rest) => (chopStart pat l).isSome || hasSub pat rest

/-! ### Sample rows used by concrete witnesses and counterexamples -/

def note1 : Transcription :=
  { id := 1
    raw_text := "Meeting with Sarah about Q1 budget"
    formatted_text := "Meeting with Sarah about Q1 budget."
    timestamp := 1000
    formatting_profile := "casual"
    is_favorite := 0
    created_at := 1500 }

def note2 : Transcription :=
  { id := 2
    raw_text := "Budget review for Q2"
    formatted_text := "Budget review for Q2."
    timestamp := 2000
    formatting_profile := "formal"
    is_favorite := 1
    created_at := 2500 }

def store1 : Store :=
  { notes := [note1, note2]
    fts := [{ rowid := 1, raw_text := note1.raw_text, formatted_text := note1.formatted_text },
            { rowid := 2, raw_text := note2.raw_text, formatted_text := note2.formatted_text }]
    tags := [{ id := 1, name := "work", color := "#6366f1", use_count := 1, created_at := 100 }]
    note_tags := [{ note_id := 1, tag_id := 1 }] }

def trivialEngine : FtsEngine := { matchRows := fun _ _ => Except.ok [] }

def someNow : JSDate := { year := 2026, month := 10, day := 12 }

/-! ### C2 — the directive-parsing scenario -/

/-- C2: on the query string of the scenario, parseQuery extracts search
text budget, the lower-cased tag list containing exactly work, a true
favorite filter, and a startDate equal to local midnight of the start
of the current Sunday-start week: the returned instant is a whole
number of days `k` since the epoch, day `k` is a Sunday (epoch day 0
was a Thursday, so Sunday means `(k + 4) % 7 = 0`), and `k` lies at
most six days before the current day. -/
theorem parseQuery_scenario_week (now : JSDate) :
    parseQuery ("budget tag:work fav:true date:week") now =
      { searchText := "budget"
        filters :=
          { startDate := some (msPerDay * (dayNumber now - jsGetDay now))
            isFavorite := some true
            tags := some ["work"] } } ∧
    ∃ k, msPerDay * (dayNumber now - jsGetDay now) = msPerDay * k ∧
      (k + 4) % 7 = 0 ∧ dayNumber now - 7 < k ∧ k ≤ dayNumber now := by
  have hcore : parseQueryCore ("budget tag:work fav:true date:week") =
      { searchText := "budget", tags := some ["work"], isFavorite := some true,
        dateWord := some ("week") } := by decide
  constructor
  · unfold parseQuery
    rw [hcore]
    simp only [jsMakeTime]
    rw [show daysFromCivil now.year now.month (now.day - jsGetDay now) =
        daysFromCivil now.year now.month now.day - jsGetDay now from
      daysFromCivil_day_sub now.year now.month now.day (jsGetDay now)]
    rfl
  · refine ⟨dayNumber now - jsGetDay now, rfl, ?_, ?_, ?_⟩ <;>
      simp only [jsGetDay] <;> omega

/-! ### C3 — unrecognized directive-shaped tokens -/

/-- C3 counterexample: the token date:yesterday is directive-shaped and
unrecognized, and it does set no filter — but it does not remain in the
returned search text: the parser strips every `date:<word>` token
before the switch on the date word. -/
theorem parseQuery_unrecognized_date_cex :
    parseQuery ("budget date:yesterday") someNow =
      { searchText := "budget", filters := {} } ∧
    hasSub (("date:yesterday").data)
      ((parseQuery ("budget date:yesterday") someNow).searchText.data) = false := by
  constructor
  · decide
  · decide

/-- C3 as amended, for every raw query.  First: when the three directive
regexes find no match at all in the raw query — which covers every query
whose directive-shaped tokens do not embed a recognized directive
substring, such as foo:bar — the query comes back verbatim as free text
with no filter set.  Second: a date match whose captured word is not
today, week or month (lower-cased) never sets a startDate filter.
Third, the stripping side on the concrete input of the counterexample:
such a date token is nonetheless removed from the free text, so the
unrecognized budget date:yesterday parses to budget with empty filters.
(Recognized directive substrings embedded inside larger tokens, such as
fav:truex, do trigger their filters, so the first part conditions on
the regexes rather than on token shape.) -/
theorem parseQuery_unrecognized_directives (raw : String) (now : JSDate) :
    (tagMatches raw.data = [] → favFind raw.data = none → dateFind raw.data = none →
      parseQuery raw now = { searchText := raw, filters := {} }) ∧
    (∀ w, dateFind raw.data = some w →
      String.mk (w.map Char.toLower) ≠ "today" →
      String.mk (w.map Char.toLower) ≠ "week" →
      String.mk (w.map Char.toLower) ≠ "month" →
      (parseQuery raw now).filters.startDate = none) ∧
    parseQuery ("budget date:yesterday") now =
      { searchText := "budget", filters := {} } := by
  refine ⟨?_, ?_, ?_⟩
  · intro h1 h2 h3
    simp only [parseQuery, parseQueryCore, h1, h2, h3]
    rfl
  · intro w hw hnt hnw hnm
    have hdw : (parseQueryCore raw).dateWord =
        some (String.mk (w.map Char.toLower)) := by
      simp [parseQueryCore, hw]
    simp only [parseQuery]
    rw [hdw]
    simp [hnt, hnw, hnm]
  · have h2 : parseQueryCore ("budget date:yesterday") =
        { searchText := "budget", tags := none, isFavorite := none,
          dateWord := some ("yesterday") } := by decide
    unfold parseQuery
    rw [h2]
    rfl

theorem parseQuery_unrecognized_directives_witness :
    parseQuery ("budget foo:bar") someNow =
      { searchText := "budget foo:bar", filters := {} } ∧
    (parseQuery ("budget date:yesterday") someNow).filters.startDate = none :=
  ⟨(parseQuery_unrecognized_directives ("budget foo:bar") someNow).1
      (by decide) (by decide) (by decide),
   (parseQuery_unrecognized_directives ("budget date:yesterday") someNow).2.1
      (("yesterday").data) (by decide) (by decide) (by decide) (by decide)⟩

/-! ### C4 — mutations on a missing id are complete no-ops -/

theorem find_id_none {s : Store} {id : Int} (h : ∀ n ∈ s.notes, n.id ≠ id) :
    s.notes.find? (fun n => n.id = id) = none :=
  List.find?_eq_none.mpr (fun n hn => by simpa using h n hn)

/-- C4: when no note carries the requested id, update, delete and
toggleFavorite all return and leave every component of the store —
notes, index entries and tag associations — unchanged. -/
theorem mutations_noop_on_missing (s : Store) (id : Int) (u : TranscriptionUpdate)
    (h : ∀ n ∈ s.notes, n.id ≠ id) :
    updateTranscription s id u = s ∧ deleteTranscription s id = s ∧
      toggleFavorite s id = s := by
  have hfind := find_id_none h
  have hmap : ∀ f : Transcription → Transcription,
      s.notes.map (fun n => if n.id = id then f n else n) = s.notes := by
    intro f
    exact list_map_self _ s.notes (fun n hn => if_neg (h n hn))
  refine ⟨?_, ?_, ?_⟩
  · unfold updateTranscription
    split
    · rfl
    · rw [hfind, hmap]
  · unfold deleteTranscription
    have hany : s.notes.any (fun n => n.id = id) = false := by
      simp only [List.any_eq_false, decide_eq_true_eq]
      exact h
    simp [hany]
  · unfold toggleFavorite
    rw [hfind, hmap]

theorem mutations_noop_on_missing_witness :
    updateTranscription store1 999999 { formatted_text := some ("x") } = store1 ∧
      deleteTranscription store1 999999 = store1 ∧ toggleFavorite store1 999999 = store1 :=
  mutations_noop_on_missing store1 999999 { formatted_text := some ("x") } (by decide)

/-! ### C8 — update touches only the updatable fields of the one row -/

/-- C8: update never changes the tag tables, never changes the number of
notes, and row-for-row: id, raw text, timestamp and creation time are
preserved everywhere, rows with a different id are untouched, and the
row with the requested id receives exactly the provided updatable
fields (a missing field keeps its old value). -/
theorem update_frame (s : Store) (id : Int) (u : TranscriptionUpdate) :
    (updateTranscription s id u).tags = s.tags ∧
    (updateTranscription s id u).note_tags = s.note_tags ∧
    List.Forall₂
      (fun n n2 : Transcription =>
        n2.id = n.id ∧ n2.raw_text = n.raw_text ∧ n2.timestamp = n.timestamp ∧
        n2.created_at = n.created_at ∧
        (n.id ≠ id → n2 = n) ∧
        (n.id = id →
          n2.formatted_text = u.formatted_text.getD n.formatted_text ∧
          n2.formatting_profile = u.formatting_profile.getD n.formatting_profile ∧
          n2.is_favorite = u.is_favorite.getD n.is_favorite))
      s.notes (updateTranscription s id u).notes := by
  unfold updateTranscription
  by_cases hf : hasUpdateFields u = false
  · rw [if_pos hf]
    have hft : u.formatted_text = none := by
      cases hx : u.formatted_text <;> simp_all [hasUpdateFields]
    have hfp : u.formatting_profile = none := by
      cases hx : u.formatting_profile <;> simp_all [hasUpdateFields]
    have hfv : u.is_favorite = none := by
      cases hx : u.is_favorite <;> simp_all [hasUpdateFields]
    refine ⟨rfl, rfl, List.forall₂_same.mpr (fun n _ => ?_)⟩
    refine ⟨rfl, rfl, rfl, rfl, fun _ => rfl, fun _ => ?_⟩
    simp [hft, hfp, hfv]
  · rw [if_neg hf]
    refine ⟨rfl, rfl, ?_⟩
    refine List.forall₂_map_right_iff.mpr (List.forall₂_same.mpr (fun n _ => ?_))
    by_cases hid : n.id = id
    · refine ⟨?_, ?_, ?_, ?_, fun hne => absurd hid hne, fun _ => ⟨?_, ?_, ?_⟩⟩ <;>
        simp [hid, applyUpdate]
    · refine ⟨?_, ?_, ?_, ?_, fun _ => ?_, fun heq => absurd heq hid⟩ <;> simp [hid]

theorem update_frame_witness :
    (updateTranscription store1 1 { formatted_text := some ("edited") }).tags =
      store1.tags :=
  (update_frame store1 1 { formatted_text := some ("edited") }).1

/-! ### C5 — longest-match phrase replacement -/

def kleeneShort : DictionaryEntry :=
  { id := 1, spoken_phrase := "Kleene Star", replacement := "K*",
    is_case_sensitive := 0, is_enabled := 1, created_at := 10, updated_at := 10 }

def kleeneLong : DictionaryEntry :=
  { id := 2, spoken_phrase := "Kleene Star closure", replacement := "K*-closure",
    is_case_sensitive := 0, is_enabled := 1, created_at := 20, updated_at := 20 }

/-- C5: the enabled entries are always processed in descending
spoken-phrase-length order, and on the Kleene scenario — both entries
enabled and case-insensitive, the shorter phrase listed first in the
store — the replacement produces exactly the single long substitution,
with no partial artifact left in the text. -/
theorem applyReplacements_longest_match :
    (∀ entries : List DictionaryEntry,
      List.Sorted
        (fun a b : DictionaryEntry => b.spoken_phrase.length ≤ a.spoken_phrase.length)
        (getEnabledEntries entries)) ∧
    applyReplacements [kleeneShort, kleeneLong] ("the kleene star closure property") =
      "the K*-closure property" ∧
    hasSub (("K* closure").data)
      ((applyReplacements [kleeneShort, kleeneLong]
        ("the kleene star closure property")).data) = false := by
  refine ⟨?_, by decide, by decide⟩
  intro entries
  haveI : IsTotal DictionaryEntry
      (fun a b : DictionaryEntry => b.spoken_phrase.length ≤ a.spoken_phrase.length) :=
    ⟨fun a b => Nat.le_total b.spoken_phrase.length a.spoken_phrase.length⟩
  haveI : IsTrans DictionaryEntry
      (fun a b : DictionaryEntry => b.spoken_phrase.length ≤ a.spoken_phrase.length) :=
    ⟨fun _ _ _ hab hbc => Nat.le_trans hbc hab⟩
  exact List.sorted_insertionSort _ _

/-! ### C7 — JSON export round-trip -/

theorem decodeNote_jsonOfNote (n : Transcription) : decodeNote (jsonOfNote n) = some n := by
  rfl

theorem mapM_decodeNote : ∀ l : List Transcription,
    (l.map jsonOfNote).mapM decodeNote = some l
  | [] => rfl
  | n :: l => by
    rw [List.map_cons, List.mapM_cons, decodeNote_jsonOfNote, mapM_decodeNote l]
    rfl

/-- C7: parsing the structured JSON dump back yields exactly the
selected rows — the notes whose id is in the requested set, ordered by
ascending timestamp — with every field equal; in particular the counts
agree and every decoded record is a stored note. -/
theorem export_json_roundtrip (s : Store) (ids : List Int) :
    decodeNotes (exportJson s ids) = some (exportSelect s ids) ∧
    (exportSelect s ids).length =
      (s.notes.filter (fun n => ids.contains n.id)).length ∧
    List.Sorted (fun a b : Transcription => a.timestamp ≤ b.timestamp)
      (exportSelect s ids) ∧
    ∀ n ∈ exportSelect s ids, n ∈ s.notes := by
  refine ⟨?_, ?_, ?_, ?_⟩
  · simp only [decodeNotes, exportJson, mapM_decodeNote]
  · exact (List.perm_insertionSort _ _).length_eq
  · haveI : IsTotal Transcription
        (fun a b : Transcription => a.timestamp ≤ b.timestamp) :=
      ⟨fun a b => Int.le_total a.timestamp b.timestamp⟩
    haveI : IsTrans Transcription
        (fun a b : Transcription => a.timestamp ≤ b.timestamp) :=
      ⟨fun _ _ _ hab hbc => Int.le_trans hab hbc⟩
    exact List.sorted_insertionSort _ _
  · intro n hn
    have hmem := (List.perm_insertionSort
      (fun a b : Transcription => a.timestamp ≤ b.timestamp)
      (s.notes.filter (fun n => ids.contains n.id))).mem_iff.mp hn
    exact (List.mem_filter.mp hmem).1

theorem export_json_roundtrip_witness :
    decodeNotes (exportJson store1 [2, 1]) = some [note1, note2] := by
  have h := (export_json_roundtrip store1 [2, 1]).1
  rw [h]
  decide

/-! ### C9 — export format dispatch -/

/-- C9: each of the three supported formats yields a result string,
and any other format string raises the unsupported-format error. -/
theorem export_format_dispatch (locale : Int → String) (s : Store) (ids : List Int)
    (format : String) :
    ((format = "json" ∨ format = "markdown" ∨ format = "txt") →
      ∃ out, exportTranscriptions locale s ids format = Except.ok out) ∧
    (format ≠ "json" → format ≠ "markdown" → format ≠ "txt" →
      exportTranscriptions locale s ids format =
        Except.error ("Unsupported export format: " ++ format)) := by
  unfold exportTranscriptions
  constructor
  · rintro (h | h | h) <;> simp [h]
  · intro h1 h2 h3
    simp [h1, h2, h3]

theorem export_format_dispatch_witness :
    (∃ out, exportTranscriptions (fun _ => "") store1 [1, 2] ("json") = Except.ok out) ∧
    exportTranscriptions (fun _ => "") store1 [1, 2] ("xml") =
      Except.error ("Unsupported export format: xml") :=
  ⟨(export_format_dispatch (fun _ => "") store1 [1, 2] ("json")).1 (Or.inl rfl),
   (export_format_dispatch (fun _ => "") store1 [1, 2] ("xml")).2
     (by decide) (by decide) (by decide)⟩

/-! ### C10 — OFFSET without LIMIT -/

/-- Whether a numeric filter field adds its clause: present and nonzero
(JavaScript truthiness of an optional number). -/
def numTruthy : Option Int → Bool
  | some v => v ≠ 0
  | none => false

/-- C10: a truthy offset with a falsy limit makes the listing fail with
the prepare-time syntax error instead of paginating; a limit of zero
behaves exactly as an omitted limit; and a truthy limit always lets the
statement run. -/
theorem offset_requires_limit (s : Store) (f : TranscriptionFilters) :
    (numTruthy f.offset = true → numTruthy f.limit = false →
      getTranscriptions s f = Except.error ("near \x22OFFSET\x22: syntax error")) ∧
    getTranscriptions s { f with limit := some 0 } =
      getTranscriptions s { f with limit := none } ∧
    (numTruthy f.limit = true → ∃ r, getTranscriptions s f = Except.ok r) := by
  refine ⟨?_, ?_, ?_⟩
  · intro hoff hlim
    unfold getTranscriptions runQuery
    rw [if_pos]
    have h1 : (buildListQuery f).offset.isSome = true := by
      cases hf : f.offset with
      | none => rw [hf] at hoff; exact absurd hoff (by simp [numTruthy])
      | some v =>
        rw [hf] at hoff
        simp only [numTruthy, decide_eq_true_eq] at hoff
        simp [buildListQuery, hf, hoff]
    have h2 : (buildListQuery f).limit.isNone = true := by
      cases hf : f.limit with
      | none => simp [buildListQuery, hf]
      | some v =>
        rw [hf] at hlim
        simp only [numTruthy, decide_eq_false_iff_not] at hlim
        push_neg at hlim
        simp [buildListQuery, hf, hlim]
    rw [h1, h2]
    rfl
  · have hq : buildListQuery { f with limit := some 0 } =
        buildListQuery { f with limit := none } := by
      simp [buildListQuery]
    unfold getTranscriptions
    rw [hq]
  · intro hlim
    unfold getTranscriptions runQuery
    rw [if_neg]
    · exact ⟨_, rfl⟩
    · have h2 : (buildListQuery f).limit.isNone = false := by
        cases hf : f.limit with
        | none => rw [hf] at hlim; exact absurd hlim (by simp [numTruthy])
        | some v =>
          rw [hf] at hlim
          simp only [numTruthy, decide_eq_true_eq] at hlim
          simp [buildListQuery, hf, hlim]
      simp [h2]

theorem offset_requires_limit_witness :
    getTranscriptions store1 { offset := some 2 } =
      Except.error ("near \x22OFFSET\x22: syntax error") ∧
    getTranscriptions store1 { limit := some 0, offset := some 0 } =
      getTranscriptions store1 { limit := none, offset := some 0 } ∧
    (∃ r, getTranscriptions store1 { limit := some 1, offset := some 1 } = Except.ok r) :=
  ⟨(offset_requires_limit store1 { offset := some 2 }).1 (by decide) (by decide),
   (offset_requires_limit store1 { offset := some 0 }).2.1,
   (offset_requires_limit store1 { limit := some 1, offset := some 1 }).2.2 (by decide)⟩

/-! ### C6 — semantics of the filtered listing -/

/-- A note is associated with a tag of the given name. -/
def taggedWith (s : Store) (n : Transcription) (name : String) : Prop :=
  ∃ nt ∈ s.note_tags, nt.note_id = n.id ∧
    ∃ t ∈ s.tags, t.id = nt.tag_id ∧ t.name = name

/-- The filter semantics as specified, with the amendment that a
zero-valued bound and an empty tag list count as absent: favorite flag
by exact match, inclusive timestamp bounds, and OR semantics over the
tag list. -/
def matchesSpec (s : Store) (f : TranscriptionFilters) (n : Transcription) : Prop :=
  (∀ b, f.isFavorite = some b → n.is_favorite = (if b then 1 else 0)) ∧
  (∀ v, f.startDate = some v → v ≠ 0 → v ≤ n.timestamp) ∧
  (∀ v, f.endDate = some v → v ≠ 0 → n.timestamp ≤ v) ∧
  (∀ ts, f.tags = some ts → ts ≠ [] → ∃ name ∈ ts, taggedWith s n name)

def cexNote : Transcription :=
  { id := 1, raw_text := "a", formatted_text := "a", timestamp := 5,
    formatting_profile := "casual", is_favorite := 0, created_at := 5 }

def cexStore : Store :=
  { notes := [cexNote]
    fts := [{ rowid := 1, raw_text := "a", formatted_text := "a" }]
    tags := []
    note_tags := [] }

/-- C6 counterexample: under the present filter `endDate = 0` the only
stored note does not satisfy the claimed inclusive upper bound — its
timestamp 5 is not at most 0 — yet the listing returns it, because a
zero bound adds no WHERE clause. -/
theorem list_zero_bound_cex :
    getTranscriptions cexStore { endDate := some 0 } = Except.ok [cexNote] ∧
    ¬ (cexNote.timestamp ≤ (0 : Int)) := by
  constructor
  · decide
  · decide

theorem favClause_build (fav : Option Bool) (n : Transcription) :
    favClause
        (match fav with
         | some b => some (if b then 1 else 0)
         | none => none) n = true ↔
      ∀ b, fav = some b → n.is_favorite = (if b then 1 else 0) := by
  cases fav <;> simp [favClause]

theorem startClause_build (sd : Option Int) (n : Transcription) :
    startClause (sd.bind (fun v => if v = 0 then none else some v)) n = true ↔
      ∀ v, sd = some v → v ≠ 0 → v ≤ n.timestamp := by
  cases sd with
  | none => simp [startClause]
  | some v =>
    by_cases hv : v = 0 <;> simp [startClause, hv]

theorem endClause_build (ed : Option Int) (n : Transcription) :
    endClause (ed.bind (fun v => if v = 0 then none else some v)) n = true ↔
      ∀ v, ed = some v → v ≠ 0 → n.timestamp ≤ v := by
  cases ed with
  | none => simp [endClause]
  | some v =>
    by_cases hv : v = 0 <;> simp [endClause, hv]

theorem tagClause_build (s : Store) (tags : Option (List String)) (n : Transcription) :
    tagClause s
        (match tags with
         | some ts => if ts.length > 0 then some ts else none
         | none => none) n = true ↔
      ∀ ts, tags = some ts → ts ≠ [] → ∃ name ∈ ts, taggedWith s n name := by
  cases tags with
  | none => simp [tagClause]
  | some ts =>
    show tagClause s (if ts.length > 0 then some ts else none) n = true ↔ _
    by_cases hts : ts = []
    · subst hts
      simp [tagClause]
    · rw [if_pos (List.length_pos.mpr hts)]
      simp only [tagClause, List.any_eq_true, Bool.and_eq_true, decide_eq_true_eq,
        List.elem_iff, Option.some.injEq, taggedWith]
      constructor
      · rintro ⟨nt, hnt, hid, t, ht, htid, hname⟩ ts2 hts2 _
        subst hts2
        exact ⟨t.name, by simpa using hname, nt, hnt, hid, t, ht, htid, rfl⟩
      · intro h
        obtain ⟨name, hname, nt, hnt, hid, t, ht, htid, heq⟩ := h ts rfl hts
        exact ⟨nt, hnt, hid, t, ht, htid, by simpa [heq] using hname⟩

/-- C6 as amended: the WHERE clause built from a filter object accepts
exactly the notes matching every present filter, where a zero numeric
field or an empty tag list counts as absent — favorite by exact match,
inclusive bounds, tag OR — and with limit and offset absent or zero the
listing returns exactly the matching notes, ordered by timestamp
descending. -/
theorem list_filter_semantics :
    (∀ (s : Store) (f : TranscriptionFilters) (n : Transcription),
      rowMatches s (buildListQuery f) n = true ↔ matchesSpec s f n) ∧
    (∀ (s : Store) (f : TranscriptionFilters),
      (f.limit = none ∨ f.limit = some 0) → (f.offset = none ∨ f.offset = some 0) →
      ∃ r, getTranscriptions s f = Except.ok r ∧
        List.Sorted (fun a b : Transcription => b.timestamp ≤ a.timestamp) r ∧
        r.Perm (s.notes.filter (fun n => rowMatches s (buildListQuery f) n))) := by
  constructor
  · intro s f n
    simp only [rowMatches, buildListQuery, matchesSpec, Bool.and_eq_true,
      favClause_build, startClause_build, endClause_build, tagClause_build]
    tauto
  · intro s f hlim hoff
    have hl : (buildListQuery f).limit = none := by
      rcases hlim with h | h <;> simp [buildListQuery, h]
    have ho : (buildListQuery f).offset = none := by
      rcases hoff with h | h <;> simp [buildListQuery, h]
    refine ⟨List.insertionSort (fun a b : Transcription => b.timestamp ≤ a.timestamp)
      (s.notes.filter (fun n => rowMatches s (buildListQuery f) n)), ?_, ?_, ?_⟩
    · unfold getTranscriptions runQuery applyPage
      rw [if_neg (by simp [ho]), hl]
    · haveI : IsTotal Transcription
          (fun a b : Transcription => b.timestamp ≤ a.timestamp) :=
        ⟨fun a b => Int.le_total b.timestamp a.timestamp⟩
      haveI : IsTrans Transcription
          (fun a b : Transcription => b.timestamp ≤ a.timestamp) :=
        ⟨fun _ _ _ hab hbc => Int.le_trans hbc hab⟩
      exact List.sorted_insertionSort _ _
    · exact List.perm_insertionSort _ _

theorem list_filter_semantics_witness :
    (rowMatches store1 (buildListQuery { isFavorite := some true }) note2 = true ↔
      matchesSpec store1 { isFavorite := some true } note2) ∧
    (∃ r, getTranscriptions store1 { isFavorite := some true } = Except.ok r ∧
      List.Sorted (fun a b : Transcription => b.timestamp ≤ a.timestamp) r ∧
      r.Perm (store1.notes.filter
        (fun n => rowMatches store1 (buildListQuery { isFavorite := some true }) n))) :=
  ⟨list_filter_semantics.1 store1 { isFavorite := some true } note2,
   list_filter_semantics.2 store1 { isFavorite := some true } (Or.inl rfl) (Or.inl rfl)⟩

/-! ### C1 — the pagination total invariant -/

theorem except_map_ok {ε α β : Type} {e : Except ε α} {f : α → β} {r : β}
    (h : e.map f = Except.ok r) : ∃ x, e = Except.ok x ∧ r = f x := by
  cases e with
  | error m => simp [Except.map] at h
  | ok x =>
    refine ⟨x, rfl, ?_⟩
    simpa [Except.map] using h.symm

/-- C1 counterexample: with an explicit limit of 0 and offset of 1 —
values the claim quantifies over — the dispatched listing statement
carries an OFFSET clause without a LIMIT clause, so search throws
instead of returning a result carrying the store total. -/
theorem search_total_cex :
    search trivialEngine cexStore someNow
        { query := "", limit := some 0, offset := some 1 } =
      Except.error ("near \x22OFFSET\x22: syntax error") := by
  decide

/-- C1 as amended: whenever search returns a result — which it does
unless the degenerate limit-0-with-nonzero-offset pagination makes the
underlying statement fail, or the full-text engine rejects the query —
its total equals the overall store count, independent of the query and
filters, and hasMore compares offset plus the returned count against
that same total; consequently any two succeeding limit-2 probes at
offsets 0 and 2 report the same total. -/
theorem search_total_invariant (e : FtsEngine) (s : Store) (now : JSDate) :
    (∀ (opts : SearchOptions) (r : SearchResult),
      search e s now opts = Except.ok r →
      r.total = (getStats s).total ∧
      (r.hasMore = true ↔
        opts.offset.getD 0 + (r.transcriptions.length : Int) <
          ((getStats s).total : Int))) ∧
    (∀ (q : String) (r0 r2 : SearchResult),
      search e s now { query := q, limit := some 2, offset := some 0 } = Except.ok r0 →
      search e s now { query := q, limit := some 2, offset := some 2 } = Except.ok r2 →
      r0.total = r2.total) := by
  have main : ∀ (opts : SearchOptions) (r : SearchResult),
      search e s now opts = Except.ok r →
      r.total = (getStats s).total ∧
      (r.hasMore = true ↔
        opts.offset.getD 0 + (r.transcriptions.length : Int) <
          ((getStats s).total : Int)) := by
    intro opts r h
    unfold search at h
    obtain ⟨rows, _, hr⟩ := except_map_ok h
    subst hr
    exact ⟨rfl, by simp⟩
  refine ⟨main, fun q r0 r2 h0 h2 => ?_⟩
  rw [(main _ r0 h0).1, (main _ r2 h2).1]

def searchRes0 : SearchResult :=
  { transcriptions := [note2, note1], total := 2, hasMore := false }

theorem search_total_invariant_witness :
    searchRes0.total = (getStats store1).total ∧
    (searchRes0.hasMore = true ↔
      (0 : Int) + (searchRes0.transcriptions.length : Int) <
        ((getStats store1).total : Int)) := by
  have h := (search_total_invariant trivialEngine store1 someNow).1
    { query := "" } searchRes0 (by decide)
  simpa using h

end STT
